import Mathlib

/-!  Verification of the quick-review reasoning-loop core.

Shallow embedding of the Rust sources:
  - src/review_result.rs      (LineComment, ReviewResult)
  - src/review_input.rs       (FileContent, ReviewInput)
  - src/pr_url.rs             (Platform, PrUrl, PrUrl::parse)
  - src/mcp_provider.rs       (McpProvider, McpError)
  - src/review_agent/review_tools.rs      (ReviewToolSource)
  - src/review_agent/mcp_review_tools.rs  (McpReviewToolSource)
  - src/review_agent/agent.rs             (LangGraphReviewAgent::run_review)

JSON argument payloads (serde_json::Value in the source) are modelled by the
inductive `Json` with integer numerics; stateful tool sources are modelled as
explicit state-passing functions.  The MCP provider (an external trait object)
is modelled as a pair of functions indexed by the invocation count, so that a
run can observe how many times fetch/post were invoked and what each attempt
returned.
-/

namespace QuickReview

/-- Single line comment of a review result (src/review_result.rs).
`line` is `u32` in the source; deserialization enforces `0 ≤ line < 2^32`,
so we carry it as `Nat`. -/
structure LineComment where
  path : String
  line : Nat
  body : String
deriving DecidableEq, Repr

/-- Full review result: summary text and per-line comments (src/review_result.rs). -/
structure ReviewResult where
  summary : String
  line_comments : List LineComment
deriving DecidableEq, Repr

/-- One file entry of the review input (src/review_input.rs). -/
structure FileContent where
  path : String
  diff : Option String
  content : Option String
deriving DecidableEq, Repr

/-- Aggregated input for a single PR/MR review (src/review_input.rs). -/
structure ReviewInput where
  title : String
  description : String
  diff : String
  files : List FileContent
deriving DecidableEq, Repr

/-- Model of `serde_json::Value`: tool arguments arrive as loosely typed JSON. -/
inductive Json where
  | null : Json
  | bool (b : Bool) : Json
  | num (n : Int) : Json
  | str (s : String) : Json
  | arr (elems : List Json) : Json
  | obj (fields : List (String × Json)) : Json

/-- First binding of a key in a JSON object field list. -/
def lookupField : List (String × Json) → String → Option Json
  | [], _ => none
  | (k, v) :: rest, key => if k = key then some v else lookupField rest key

/-- Model of `serde_json::Value::get(key)`: field of an object, else `None`. -/
def Json.getField : Json → String → Option Json
  | .obj fields, key => lookupField fields key
  | _, _ => none

/-- Model of `serde_json::Value::as_str`. -/
def Json.asStr : Json → Option String
  | .str s => some s
  | _ => none

/-- Deserialization target for one line comment
(struct `LineCommentInput` in both tool-source files). -/
structure LineCommentInput where
  path : String
  line : Nat
  body : String
deriving DecidableEq, Repr

/-- Serde deserialization of one `LineCommentInput` record: requires an object
with a string `path`, a `u32` `line` (an integer in `[0, 2^32)`), and a string
`body`; extra fields are ignored, anything else fails. -/
def parseLineCommentInput (j : Json) : Option LineCommentInput :=
  match (j.getField "path").bind Json.asStr,
        j.getField "line",
        (j.getField "body").bind Json.asStr with
  | some p, some (.num n), some b =>
      if 0 ≤ n ∧ n < 4294967296 then some ⟨p, n.toNat, b⟩ else none
  | _, _, _ => none

/-- Serde deserialization of a `Vec<LineCommentInput>` element list:
all-or-nothing, failing on the first bad element. -/
def parseAllLineComments : List Json → Option (List LineCommentInput)
  | [] => some []
  | j :: rest =>
      match parseLineCommentInput j, parseAllLineComments rest with
      | some c, some cs => some (c :: cs)
      | _, _ => none

/-- Serde deserialization of `Vec<LineCommentInput>` from a JSON value:
only an array can succeed. -/
def parseLineComments (j : Json) : Option (List LineCommentInput) :=
  match j with
  | .arr elems => parseAllLineComments elems
  | _ => none

/-- Extraction of the required `summary` argument:
`arguments.get("summary").and_then(|v| v.as_str())`. -/
def getSummaryArg (args : Json) : Option String :=
  (args.getField "summary").bind Json.asStr

/-- Extraction of the optional `line_comments` argument:
`serde_json::from_value(arguments.get("line_comments").cloned().unwrap_or(json!([]))).ok()`. -/
def getLineCommentsArg (args : Json) : Option (List LineCommentInput) :=
  parseLineComments ((args.getField "line_comments").getD (Json.arr []))

/-- Model of `langgraph::ToolSourceError` (the variants this crate constructs). -/
inductive ToolSourceError where
  | NotFound (name : String) : ToolSourceError
  | InvalidInput (msg : String) : ToolSourceError
deriving DecidableEq, Repr

/-- Model of `langgraph::ToolCallContent`. -/
structure ToolCallContent where
  text : String
deriving DecidableEq, Repr

/-- Tool name constant (src/review_agent/review_tools.rs). -/
def TOOL_GET_PR_CONTEXT : String := "get_pr_context"

/-- Tool name constant (src/review_agent/review_tools.rs). -/
def TOOL_SUBMIT_REVIEW : String := "submit_review"

/-- Filter inside `build_review_result` (and its inline copy in
mcp_review_tools.rs): keeps entries with `line >= 1`, non-empty `path`,
non-empty `body`, converting them to `LineComment` in order. -/
def filterMapComments (cs : List LineCommentInput) : List LineComment :=
  cs.filterMap (fun c =>
    if 1 ≤ c.line ∧ c.path ≠ "" ∧ c.body ≠ "" then
      some ⟨c.path, c.line, c.body⟩
    else none)

namespace ReviewToolSource

/-- Model of `ReviewToolSource::get_pr_context` (review_tools.rs lines 85-101). -/
def get_pr_context (input : ReviewInput) (part : String) : String :=
  if part = "title" then input.title
  else if part = "description" then input.description
  else if part = "diff" then input.diff
  else if part = "files" then
    String.intercalate ", " (input.files.map (fun f => f.path))
  else "Unknown part: " ++ part

/-- Model of `ReviewToolSource::build_review_result` (review_tools.rs lines 103-126). -/
def build_review_result (summary : String)
    (line_comments : Option (List LineCommentInput)) : ReviewResult :=
  { summary := summary, line_comments := filterMapComments (line_comments.getD []) }

/-- Model of `ReviewToolSource::call_tool` (review_tools.rs lines 142-176).
The result slot (`Arc<RwLock<Option<ReviewResult>>>` in the source) is passed
and returned explicitly; the pair carries the tool outcome and the slot after
the call. -/
def call_tool (input : ReviewInput) (slot : Option ReviewResult)
    (name : String) (arguments : Json) :
    Except ToolSourceError ToolCallContent × Option ReviewResult :=
  if name = TOOL_GET_PR_CONTEXT then
    let part := ((arguments.getField "part").bind Json.asStr).getD ""
    (Except.ok ⟨get_pr_context input part⟩, slot)
  else if name = TOOL_SUBMIT_REVIEW then
    match getSummaryArg arguments with
    | none => (Except.error (.InvalidInput "submit_review: missing summary"), slot)
    | some summary =>
        let line_comments := getLineCommentsArg arguments
        let result := build_review_result summary line_comments
        let slot2 := if slot.isNone then some result else slot
        (Except.ok ⟨"Review submitted."⟩, slot2)
  else
    (Except.error (.NotFound name), slot)

/-- Sequential execution of a list of tool calls against one slot,
collecting each call's outcome and the final slot. -/
def run_calls (input : ReviewInput) (slot : Option ReviewResult) :
    List (String × Json) →
    List (Except ToolSourceError ToolCallContent) × Option ReviewResult
  | [] => ([], slot)
  | (n, a) :: rest =>
      let step := call_tool input slot n a
      let tail := run_calls input step.2 rest
      (step.1 :: tail.1, tail.2)

end ReviewToolSource

/-- Model of `McpError` (src/mcp_provider.rs). -/
structure McpError where
  message : String
deriving DecidableEq, Repr

/-- Model of the external `McpProvider` trait object: the outcome of the k-th
fetch invocation and of the k-th post_review invocation (indexing by
invocation count models an arbitrary external provider). -/
structure McpProvider where
  fetch : Nat → Except McpError ReviewInput
  post_review : Nat → ReviewResult → Except McpError Unit

/-- Mutable state of one `McpReviewToolSource` during a review: the fetch
cache and the result slot (both `Arc<RwLock<Option<_>>>` in the source),
plus counters of provider invocations performed so far. -/
structure McpState where
  cached : Option ReviewInput
  slot : Option ReviewResult
  fetchCalls : Nat
  postCalls : Nat

namespace McpReviewToolSource

/-- Model of `McpReviewToolSource::get_part_from_input` (mcp_review_tools.rs lines 50-61). -/
def get_part_from_input (input : ReviewInput) (part : String) : String :=
  if part = "title" then input.title
  else if part = "description" then input.description
  else if part = "diff" then input.diff
  else if part = "files" then
    String.intercalate ", " (input.files.map (fun f => f.path))
  else "Unknown part: " ++ part

/-- Model of `McpReviewToolSource::call_tool` (mcp_review_tools.rs lines 77-142).
State-passing version: the pair carries the tool outcome and the state after
the call.  A fetch/post attempt increments the corresponding counter whether
it succeeds or fails. -/
def call_tool (mcp : McpProvider) (st : McpState)
    (name : String) (arguments : Json) :
    Except ToolSourceError ToolCallContent × McpState :=
  if name = TOOL_GET_PR_CONTEXT then
    let part := ((arguments.getField "part").bind Json.asStr).getD ""
    match st.cached with
    | some input => (Except.ok ⟨get_part_from_input input part⟩, st)
    | none =>
        match mcp.fetch st.fetchCalls with
        | .error e =>
            (Except.error (.InvalidInput ("MCP fetch failed: " ++ e.message)),
             { st with fetchCalls := st.fetchCalls + 1 })
        | .ok input =>
            (Except.ok ⟨get_part_from_input input part⟩,
             { st with cached := some input, fetchCalls := st.fetchCalls + 1 })
  else if name = TOOL_SUBMIT_REVIEW then
    match getSummaryArg arguments with
    | none => (Except.error (.InvalidInput "submit_review: missing summary"), st)
    | some summary =>
        let line_comments := getLineCommentsArg arguments
        let comments := filterMapComments (line_comments.getD [])
        let result : ReviewResult := ⟨summary, comments⟩
        match mcp.post_review st.postCalls result with
        | .error e =>
            (Except.error (.InvalidInput ("MCP post_review failed: " ++ e.message)),
             { st with postCalls := st.postCalls + 1 })
        | .ok _ =>
            let slot2 := if st.slot.isNone then some result else st.slot
            (Except.ok ⟨"Review submitted and posted via MCP."⟩,
             { st with slot := slot2, postCalls := st.postCalls + 1 })
  else
    (Except.error (.NotFound name), st)

/-- Number of calls in a run that populate the fetch cache.  The cache goes
from empty to filled exactly when a provider fetch succeeds, so this counts
the successful provider fetches of the run. -/
def cacheFills (mcp : McpProvider) (st : McpState) :
    List (String × Json) → Nat
  | [] => 0
  | (n, a) :: rest =>
      let st2 := (call_tool mcp st n a).2
      (if st.cached.isNone ∧ st2.cached.isSome then 1 else 0)
        + cacheFills mcp st2 rest

end McpReviewToolSource

/-- Model of `ReviewError` (src/agent_reviewer.rs). -/
structure ReviewError where
  message : String
deriving DecidableEq, Repr

namespace LangGraphReviewAgent

/-- Model of the result-extraction stage of `LangGraphReviewAgent::run_review`
(agent.rs lines 93-108): after the graph run, the slot is read and
`outcome.ok_or_else(|| ReviewError { message: "review agent did not call submit_review" })`
maps an empty slot to the failure. -/
def run_review_outcome (outcome : Option ReviewResult) :
    Except ReviewError ReviewResult :=
  match outcome with
  | some r => Except.ok r
  | none => Except.error ⟨"review agent did not call submit_review"⟩

end LangGraphReviewAgent

/-- Supported platform (src/pr_url.rs). -/
inductive Platform where
  | GitHub : Platform
  | GitLab : Platform
deriving DecidableEq, Repr

/-- Parsed PR (GitHub) or MR (GitLab) URL (src/pr_url.rs). -/
structure PrUrl where
  platform : Platform
  owner : String
  repo : String
  id : String
deriving DecidableEq, Repr

/-- Character-list test that `p` is an initial run of `s`
(the test `str::starts_with` performs). -/
def charLeads : List Char → List Char → Bool
  | [], _ => true
  | _ :: _, [] => false
  | p :: ps, c :: cs => p = c && charLeads ps cs

/-- Model of `str::strip_prefix`: the remainder after `p` when `s` starts
with `p`.  Implemented over character lists so that it evaluates by
structural recursion. -/
def dropStart (s p : String) : Option String :=
  if charLeads p.data s.data then some (String.mk (s.data.drop p.data.length))
  else none

/-- Character-list splitting on one separator, Rust `str::split(sep)`
semantics: every occurrence separates, empty pieces are kept, and the empty
string yields one empty piece. -/
def splitCharList (sep : Char) : List Char → List (List Char)
  | [] => [[]]
  | c :: rest =>
      match splitCharList sep rest with
      | [] => [[]]
      | h :: t => if c = sep then [] :: h :: t else (c :: h) :: t

/-- Model of `rest.split('/').collect::<Vec<_>>()`. -/
def splitSlash (s : String) : List String :=
  (splitCharList '/' s.data).map String.mk

/-- Model of Rust `char::is_whitespace`: the Unicode code points carrying the
White_Space property (U+0009..U+000D, U+0020, U+0085, U+00A0, U+1680,
U+2000..U+200A, U+2028, U+2029, U+202F, U+205F, U+3000). -/
def isRustWhitespace (c : Char) : Bool :=
  let n := c.toNat
  (9 ≤ n && n ≤ 13) || n == 32 || n == 133 || n == 160 || n == 5760 ||
  (8192 ≤ n && n ≤ 8202) || n == 8232 || n == 8233 || n == 8239 || n == 8287 ||
  n == 12288

/-- Model of `str::trim`: removes leading and trailing Unicode whitespace. -/
def trimStr (s : String) : String :=
  String.mk (((s.data.dropWhile isRustWhitespace).reverse.dropWhile
      isRustWhitespace).reverse)

/-- Model of `PrUrl::parse` (pr_url.rs lines 38-67): trims the input, then
tries the GitHub branch (split on `/`, at least 4 segments, third = `pull`),
then the GitLab branch (a `-` segment followed by `merge_requests` and an id;
owner and repo are the first two segments). -/
def PrUrl.parse (url : String) : Option PrUrl :=
  let url := trimStr url
  let github : Option PrUrl :=
    match dropStart url "https://github.com/" with
    | some rest =>
        let parts := splitSlash rest
        if 4 ≤ parts.length ∧ parts.getD 2 "" = "pull" then
          some ⟨.GitHub, parts.getD 0 "", parts.getD 1 "", parts.getD 3 ""⟩
        else none
    | none => none
  match github with
  | some r => some r
  | none =>
      match dropStart url "https://gitlab.com/" with
      | some rest =>
          let parts := splitSlash rest
          match parts.findIdx? (fun p => p == "-") with
          | some pos =>
              if pos + 2 < parts.length ∧ parts.getD (pos + 1) "" = "merge_requests" then
                some ⟨.GitLab, parts.getD 0 "", parts.getD 1 "", parts.getD (pos + 2) ""⟩
              else none
          | none => none
      | none => none

/-! Helper definitions and lemmas shared by the claim theorems. -/

/-- Reinjection of a constructed `LineComment` into the deserialization type
(the two have the same fields). -/
def toInput (c : LineComment) : LineCommentInput := ⟨c.path, c.line, c.body⟩

/-- Keep-condition of the line-comment filter, as a Boolean predicate. -/
def keepComment (c : LineCommentInput) : Bool :=
  decide (1 ≤ c.line ∧ c.path ≠ "" ∧ c.body ≠ "")

/-- JSON encoding of one well-formed line-comment record, as the decision
maker would send it. -/
def encodeLineComment (c : LineCommentInput) : Json :=
  .obj [("path", .str c.path), ("line", .num (c.line : Int)), ("body", .str c.body)]

/-- Part selector extracted from the arguments by both tool sources
(`arguments.get("part").and_then(|v| v.as_str()).unwrap_or("")`). -/
def partArg (args : Json) : String :=
  ((args.getField "part").bind Json.asStr).getD ""

/-- Verdict the MCP submit branch constructs for given arguments. -/
def mcpVerdict (s : String) (args : Json) : ReviewResult :=
  ⟨s, filterMapComments ((getLineCommentsArg args).getD [])⟩

lemma getField_encode_path (c : LineCommentInput) :
    (encodeLineComment c).getField "path" = some (.str c.path) := rfl

lemma getField_encode_line (c : LineCommentInput) :
    (encodeLineComment c).getField "line" = some (.num (c.line : Int)) := rfl

lemma getField_encode_body (c : LineCommentInput) :
    (encodeLineComment c).getField "body" = some (.str c.body) := rfl

lemma parse_encode (c : LineCommentInput) (h : c.line < 4294967296) :
    parseLineCommentInput (encodeLineComment c) = some c := by
  have h1 : (0 : Int) ≤ (c.line : Int) := Int.ofNat_nonneg _
  have h2 : (c.line : Int) < 4294967296 := by exact_mod_cast h
  simp [parseLineCommentInput, getField_encode_path, getField_encode_line,
    getField_encode_body, Json.asStr, h1, h2]

lemma parseAll_encode (entries : List LineCommentInput)
    (h : ∀ c ∈ entries, c.line < 4294967296) :
    parseAllLineComments (entries.map encodeLineComment) = some entries := by
  induction entries with
  | nil => rfl
  | cons c rest ih =>
      have hc := parse_encode c (h c (List.mem_cons_self c rest))
      have hr := ih (fun x hx => h x (List.mem_cons_of_mem c hx))
      rw [List.map_cons, parseAllLineComments, hc, hr]

lemma filterMapComments_eq_filter_map (cs : List LineCommentInput) :
    filterMapComments cs
      = (cs.filter keepComment).map (fun c => ⟨c.path, c.line, c.body⟩) := by
  induction cs with
  | nil => rfl
  | cons c rest ih =>
      by_cases h : 1 ≤ c.line ∧ c.path ≠ "" ∧ c.body ≠ ""
      · simp [filterMapComments, List.filter_cons, keepComment, h] at *
        exact ih
      · simp [filterMapComments, List.filter_cons, keepComment, h] at *
        exact ih

lemma submit_missing_summary (input : ReviewInput) (slot : Option ReviewResult)
    (args : Json) (h : getSummaryArg args = none) :
    ReviewToolSource.call_tool input slot TOOL_SUBMIT_REVIEW args
      = (Except.error (.InvalidInput "submit_review: missing summary"), slot) := by
  unfold ReviewToolSource.call_tool
  rw [if_neg (by decide), if_pos rfl, h]

lemma submit_valid_summary (input : ReviewInput) (slot : Option ReviewResult)
    (args : Json) (s : String) (h : getSummaryArg args = some s) :
    ReviewToolSource.call_tool input slot TOOL_SUBMIT_REVIEW args
      = (Except.ok ⟨"Review submitted."⟩,
         if slot.isNone then
           some (ReviewToolSource.build_review_result s (getLineCommentsArg args))
         else slot) := by
  unfold ReviewToolSource.call_tool
  rw [if_neg (by decide), if_pos rfl, h]

lemma run_calls_submit_after_full (input : ReviewInput) (r : ReviewResult)
    (argsList : List Json) (h : ∀ a ∈ argsList, (getSummaryArg a).isSome = true) :
    ReviewToolSource.run_calls input (some r)
        (argsList.map fun a => (TOOL_SUBMIT_REVIEW, a))
      = (argsList.map fun _ => Except.ok ⟨"Review submitted."⟩, some r) := by
  induction argsList with
  | nil => rfl
  | cons a rest ih =>
      obtain ⟨s, hs⟩ := Option.isSome_iff_exists.mp (h a (by simp))
      have step := submit_valid_summary input (some r) a s hs
      have tail := ih (fun x hx => h x (List.mem_cons_of_mem a hx))
      simp [ReviewToolSource.run_calls, step, tail]

lemma mcp_submit_missing (mcp : McpProvider) (st : McpState) (args : Json)
    (h : getSummaryArg args = none) :
    McpReviewToolSource.call_tool mcp st TOOL_SUBMIT_REVIEW args
      = (Except.error (.InvalidInput "submit_review: missing summary"), st) := by
  unfold McpReviewToolSource.call_tool
  rw [if_neg (by decide), if_pos rfl, h]

lemma mcp_submit_post_ok (mcp : McpProvider) (st : McpState) (args : Json) (s : String)
    (h : getSummaryArg args = some s)
    (hpost : mcp.post_review st.postCalls (mcpVerdict s args) = Except.ok ()) :
    McpReviewToolSource.call_tool mcp st TOOL_SUBMIT_REVIEW args
      = (Except.ok ⟨"Review submitted and posted via MCP."⟩,
         { st with
             slot := if st.slot.isNone then some (mcpVerdict s args) else st.slot,
             postCalls := st.postCalls + 1 }) := by
  unfold McpReviewToolSource.call_tool
  rw [if_neg (by decide), if_pos rfl, h]
  simp only [mcpVerdict] at hpost
  simp [hpost, mcpVerdict]

lemma mcp_submit_post_err (mcp : McpProvider) (st : McpState) (args : Json)
    (s : String) (e : McpError)
    (h : getSummaryArg args = some s)
    (hpost : mcp.post_review st.postCalls (mcpVerdict s args) = Except.error e) :
    McpReviewToolSource.call_tool mcp st TOOL_SUBMIT_REVIEW args
      = (Except.error (.InvalidInput ("MCP post_review failed: " ++ e.message)),
         { st with postCalls := st.postCalls + 1 }) := by
  unfold McpReviewToolSource.call_tool
  rw [if_neg (by decide), if_pos rfl, h]
  simp only [mcpVerdict] at hpost
  simp [hpost]

lemma mcp_get_cached (mcp : McpProvider) (st : McpState) (args : Json)
    (input : ReviewInput) (h : st.cached = some input) :
    McpReviewToolSource.call_tool mcp st TOOL_GET_PR_CONTEXT args
      = (Except.ok ⟨McpReviewToolSource.get_part_from_input input (partArg args)⟩, st) := by
  unfold McpReviewToolSource.call_tool
  rw [if_pos rfl, h]
  simp [partArg]

lemma mcp_get_fetch_ok (mcp : McpProvider) (st : McpState) (args : Json)
    (input : ReviewInput) (h : st.cached = none)
    (hf : mcp.fetch st.fetchCalls = Except.ok input) :
    McpReviewToolSource.call_tool mcp st TOOL_GET_PR_CONTEXT args
      = (Except.ok ⟨McpReviewToolSource.get_part_from_input input (partArg args)⟩,
         { st with cached := some input, fetchCalls := st.fetchCalls + 1 }) := by
  unfold McpReviewToolSource.call_tool
  rw [if_pos rfl, h, hf]
  simp [partArg]

lemma mcp_get_fetch_err (mcp : McpProvider) (st : McpState) (args : Json)
    (e : McpError) (h : st.cached = none)
    (hf : mcp.fetch st.fetchCalls = Except.error e) :
    McpReviewToolSource.call_tool mcp st TOOL_GET_PR_CONTEXT args
      = (Except.error (.InvalidInput ("MCP fetch failed: " ++ e.message)),
         { st with fetchCalls := st.fetchCalls + 1 }) := by
  unfold McpReviewToolSource.call_tool
  rw [if_pos rfl, h, hf]

lemma mcp_cached_some_preserved (mcp : McpProvider) (st : McpState)
    (n : String) (a : Json) (input : ReviewInput) (h : st.cached = some input) :
    ((McpReviewToolSource.call_tool mcp st n a).2).cached = some input := by
  by_cases h1 : n = TOOL_GET_PR_CONTEXT
  · rw [h1, mcp_get_cached mcp st a input h]
    exact h
  · by_cases h2 : n = TOOL_SUBMIT_REVIEW
    · subst h2
      cases hg : getSummaryArg a with
      | none =>
          rw [mcp_submit_missing mcp st a hg]
          exact h
      | some s =>
          cases hpost : mcp.post_review st.postCalls (mcpVerdict s a) with
          | ok u =>
              cases u
              rw [mcp_submit_post_ok mcp st a s hg hpost]
              exact h
          | error e =>
              rw [mcp_submit_post_err mcp st a s e hg hpost]
              exact h
    · unfold McpReviewToolSource.call_tool
      rw [if_neg h1, if_neg h2]
      exact h

lemma cacheFills_of_some (mcp : McpProvider) (st : McpState)
    (calls : List (String × Json)) (input : ReviewInput) (h : st.cached = some input) :
    McpReviewToolSource.cacheFills mcp st calls = 0 := by
  induction calls generalizing st input with
  | nil => rfl
  | cons c rest ih =>
      obtain ⟨n, a⟩ := c
      simp only [McpReviewToolSource.cacheFills]
      rw [ih _ _ (mcp_cached_some_preserved mcp st n a input h)]
      simp [h]

lemma cacheFills_le_one (mcp : McpProvider) (st : McpState)
    (calls : List (String × Json)) :
    McpReviewToolSource.cacheFills mcp st calls ≤ 1 := by
  induction calls generalizing st with
  | nil => simp [McpReviewToolSource.cacheFills]
  | cons c rest ih =>
      obtain ⟨n, a⟩ := c
      simp only [McpReviewToolSource.cacheFills]
      cases hcp : ((McpReviewToolSource.call_tool mcp st n a).2).cached with
      | none =>
          rw [if_neg (by simp)]
          simpa using ih ((McpReviewToolSource.call_tool mcp st n a).2)
      | some i =>
          rw [cacheFills_of_some mcp _ rest i hcp]
          split <;> simp

/-! Concrete fixtures used by the witness theorems. -/

/-- Sample review input. -/
def inputW : ReviewInput := ⟨"T", "D", "the diff", []⟩

/-- Valid submit arguments, summary only. -/
def argsOkW : Json := .obj [("summary", .str "Looks good.")]

/-- Valid submit arguments of a later duplicate call. -/
def argsLaterW : Json := .obj [("summary", .str "later")]

/-- Submit arguments with no summary field. -/
def argsNoSummaryW : Json := .obj [("part", .str "diff")]

/-- Context-retrieval arguments asking for the diff. -/
def argsPartDiffW : Json := .obj [("part", .str "diff")]

/-- Context-retrieval arguments with an unrecognized part. -/
def argsPartBogusW : Json := .obj [("part", .str "bogus")]

/-- Provider whose fetch and post always succeed. -/
def providerOkW : McpProvider := ⟨fun _ => .ok inputW, fun _ _ => .ok ()⟩

/-- Provider whose post_review always fails. -/
def providerPostFailW : McpProvider := ⟨fun _ => .ok inputW, fun _ _ => .error ⟨"post boom"⟩⟩

/-- Provider whose fetch always fails. -/
def providerFetchFailW : McpProvider := ⟨fun _ => .error ⟨"boom"⟩, fun _ _ => .ok ()⟩

/-- Fresh per-review state: empty cache, empty slot, no provider calls yet. -/
def stFreshW : McpState := ⟨none, none, 0, 0⟩

/-- State whose fetch cache is already populated. -/
def stCachedW : McpState := ⟨some inputW, none, 1, 0⟩

/-- Three context-retrieval calls in a row. -/
def getCallsW : List (String × Json) :=
  [(TOOL_GET_PR_CONTEXT, argsPartDiffW), (TOOL_GET_PR_CONTEXT, argsPartDiffW),
   (TOOL_GET_PR_CONTEXT, argsPartDiffW)]

/-! Claim theorems. -/

/-- C1: for every sequence of submit_review calls with a valid (string)
summary against one result slot within a single review, exactly the first
call's verdict is retained in the slot; every later valid call is
acknowledged with the fixed success text but does not alter the stored
verdict.  The first conjunct settles this for the in-memory tool source over
a whole run; the second settles the slot-preservation step for the MCP-backed
source (whose acknowledgement additionally requires the publish to succeed). -/
theorem submit_review_single_assignment
    (input : ReviewInput) (a0 : Json) (s0 : String) (rest : List Json)
    (h0 : getSummaryArg a0 = some s0)
    (hrest : ∀ a ∈ rest, (getSummaryArg a).isSome = true) :
    ReviewToolSource.run_calls input none
        ((a0 :: rest).map fun a => (TOOL_SUBMIT_REVIEW, a))
      = ((a0 :: rest).map fun _ => Except.ok ⟨"Review submitted."⟩,
         some (ReviewToolSource.build_review_result s0 (getLineCommentsArg a0)))
    ∧ (∀ (mcp : McpProvider) (st : McpState) (args : Json) (s : String) (r : ReviewResult),
        st.slot = some r → getSummaryArg args = some s →
        mcp.post_review st.postCalls (mcpVerdict s args) = Except.ok () →
        (McpReviewToolSource.call_tool mcp st TOOL_SUBMIT_REVIEW args).1
            = Except.ok ⟨"Review submitted and posted via MCP."⟩
          ∧ ((McpReviewToolSource.call_tool mcp st TOOL_SUBMIT_REVIEW args).2).slot
              = some r) := by
  constructor
  · have step := submit_valid_summary input none a0 s0 h0
    have tail := run_calls_submit_after_full input
      (ReviewToolSource.build_review_result s0 (getLineCommentsArg a0)) rest hrest
    simp [ReviewToolSource.run_calls, step, tail]
  · intro mcp st args s r hslot hs hpost
    rw [mcp_submit_post_ok mcp st args s hs hpost]
    simp [hslot]

/-- C1 witness: two valid submit calls against the in-memory source; the
first verdict is stored, both are acknowledged. -/
theorem submit_review_single_assignment_witness :
    ReviewToolSource.run_calls inputW none
        ((argsOkW :: [argsLaterW]).map fun a => (TOOL_SUBMIT_REVIEW, a))
      = ((argsOkW :: [argsLaterW]).map fun _ => Except.ok ⟨"Review submitted."⟩,
         some (ReviewToolSource.build_review_result "Looks good." (getLineCommentsArg argsOkW)))
    ∧ (∀ (mcp : McpProvider) (st : McpState) (args : Json) (s : String) (r : ReviewResult),
        st.slot = some r → getSummaryArg args = some s →
        mcp.post_review st.postCalls (mcpVerdict s args) = Except.ok () →
        (McpReviewToolSource.call_tool mcp st TOOL_SUBMIT_REVIEW args).1
            = Except.ok ⟨"Review submitted and posted via MCP."⟩
          ∧ ((McpReviewToolSource.call_tool mcp st TOOL_SUBMIT_REVIEW args).2).slot
              = some r) :=
  submit_review_single_assignment inputW argsOkW "Looks good." [argsLaterW] rfl
    (by intro a ha
        rw [List.mem_singleton] at ha
        subst ha
        rfl)

/-- C2: in the MCP-backed dispatcher, a valid submit_review call invokes the
provider publish before any slot write: publish is attempted exactly once in
either case; when it fails, call_tool returns an InvalidInput failure carrying
the provider message and the whole state except the post counter (slot
included) is unchanged; only when it succeeds is the slot write performed. -/
theorem mcp_publish_before_slot_write
    (mcp : McpProvider) (st : McpState) (args : Json) (s : String)
    (h : getSummaryArg args = some s) :
    (∀ e : McpError,
        mcp.post_review st.postCalls (mcpVerdict s args) = Except.error e →
        McpReviewToolSource.call_tool mcp st TOOL_SUBMIT_REVIEW args
          = (Except.error (.InvalidInput ("MCP post_review failed: " ++ e.message)),
             { st with postCalls := st.postCalls + 1 }))
    ∧ (mcp.post_review st.postCalls (mcpVerdict s args) = Except.ok () →
        McpReviewToolSource.call_tool mcp st TOOL_SUBMIT_REVIEW args
          = (Except.ok ⟨"Review submitted and posted via MCP."⟩,
             { st with
                 slot := if st.slot.isNone then some (mcpVerdict s args) else st.slot,
                 postCalls := st.postCalls + 1 })) :=
  ⟨fun e he => mcp_submit_post_err mcp st args s e h he,
   fun hp => mcp_submit_post_ok mcp st args s h hp⟩

/-- C2 witness: a concrete provider whose publish fails leaves the fresh
state's slot empty and surfaces the provider message; one whose publish
succeeds writes the slot. -/
theorem mcp_publish_before_slot_write_witness :
    McpReviewToolSource.call_tool providerPostFailW stFreshW TOOL_SUBMIT_REVIEW argsOkW
      = (Except.error
           (.InvalidInput ("MCP post_review failed: " ++ (⟨"post boom"⟩ : McpError).message)),
         { stFreshW with postCalls := stFreshW.postCalls + 1 })
    ∧ McpReviewToolSource.call_tool providerOkW stFreshW TOOL_SUBMIT_REVIEW argsOkW
      = (Except.ok ⟨"Review submitted and posted via MCP."⟩,
         { stFreshW with
             slot := if stFreshW.slot.isNone then
               some (mcpVerdict "Looks good." argsOkW) else stFreshW.slot,
             postCalls := stFreshW.postCalls + 1 }) :=
  ⟨(mcp_publish_before_slot_write providerPostFailW stFreshW argsOkW "Looks good." rfl).1
      ⟨"post boom"⟩ rfl,
   (mcp_publish_before_slot_write providerOkW stFreshW argsOkW "Looks good." rfl).2 rfl⟩

/-- C3: a submit_review call whose arguments lack a string-valued summary
fails hard with InvalidInput naming the missing summary and leaves the state
untouched, in both tool sources; and in the in-memory source every call that
does carry a string summary succeeds and writes the slot whenever it is still
empty. -/
theorem submit_review_missing_summary_invalid_input
    (input : ReviewInput) (slot : Option ReviewResult)
    (mcp : McpProvider) (st : McpState) (args : Json) :
    (getSummaryArg args = none →
      ReviewToolSource.call_tool input slot TOOL_SUBMIT_REVIEW args
        = (Except.error (.InvalidInput "submit_review: missing summary"), slot))
    ∧ (getSummaryArg args = none →
      McpReviewToolSource.call_tool mcp st TOOL_SUBMIT_REVIEW args
        = (Except.error (.InvalidInput "submit_review: missing summary"), st))
    ∧ (∀ s : String, getSummaryArg args = some s →
        ReviewToolSource.call_tool input slot TOOL_SUBMIT_REVIEW args
          = (Except.ok ⟨"Review submitted."⟩,
             if slot.isNone then
               some (ReviewToolSource.build_review_result s (getLineCommentsArg args))
             else slot)) :=
  ⟨fun h => submit_missing_summary input slot args h,
   fun h => mcp_submit_missing mcp st args h,
   fun s h => submit_valid_summary input slot args s h⟩

/-- C3 witness: arguments carrying only a part field have no summary, so both
sources reject them without touching the slot; arguments with a summary make
the in-memory source write the empty slot. -/
theorem submit_review_missing_summary_invalid_input_witness :
    ReviewToolSource.call_tool inputW none TOOL_SUBMIT_REVIEW argsNoSummaryW
      = (Except.error (.InvalidInput "submit_review: missing summary"), none)
    ∧ McpReviewToolSource.call_tool providerOkW stFreshW TOOL_SUBMIT_REVIEW argsNoSummaryW
      = (Except.error (.InvalidInput "submit_review: missing summary"), stFreshW)
    ∧ ReviewToolSource.call_tool inputW none TOOL_SUBMIT_REVIEW argsOkW
      = (Except.ok ⟨"Review submitted."⟩,
         if (none : Option ReviewResult).isNone then
           some (ReviewToolSource.build_review_result "Looks good." (getLineCommentsArg argsOkW))
         else none) :=
  ⟨(submit_review_missing_summary_invalid_input inputW none providerOkW stFreshW
      argsNoSummaryW).1 rfl,
   (submit_review_missing_summary_invalid_input inputW none providerOkW stFreshW
      argsNoSummaryW).2.1 rfl,
   (submit_review_missing_summary_invalid_input inputW none providerOkW stFreshW
      argsOkW).2.2 "Looks good." rfl⟩

/-- C6: when the reasoning loop halts without any successful submit_review
(the result slot is empty), the orchestrator fails with exactly
"review agent did not call submit_review" and never returns a verdict; when
the slot holds a verdict, that verdict is returned. -/
theorem orchestrator_no_submission_failure :
    LangGraphReviewAgent.run_review_outcome none
        = Except.error ⟨"review agent did not call submit_review"⟩
    ∧ (∀ r : ReviewResult,
        LangGraphReviewAgent.run_review_outcome none ≠ Except.ok r)
    ∧ (∀ r : ReviewResult,
        LangGraphReviewAgent.run_review_outcome (some r) = Except.ok r) := by
  refine ⟨rfl, ?_, fun r => rfl⟩
  intro r h
  simp [LangGraphReviewAgent.run_review_outcome] at h

/-- C7: the line-comment filter is idempotent — filtering an already filtered
list (reinjected into the input type, which has the same fields) changes
nothing. -/
theorem comment_filter_idempotent (cs : List LineCommentInput) :
    filterMapComments ((filterMapComments cs).map toInput) = filterMapComments cs := by
  induction cs with
  | nil => rfl
  | cons c rest ih =>
      by_cases h : 1 ≤ c.line ∧ c.path ≠ "" ∧ c.body ≠ ""
      · simp [filterMapComments, h, toInput] at *
        simpa [filterMapComments] using ih
      · simp [filterMapComments, h] at *
        exact ih

/-- C7 witness: the idempotence theorem applied to a concrete mixed list of
valid and invalid entries. -/
theorem comment_filter_idempotent_witness :
    filterMapComments
        ((filterMapComments [⟨"a", 0, "b"⟩, ⟨"", 1, "x"⟩, ⟨"p", 2, "q"⟩]).map toInput)
      = filterMapComments [⟨"a", 0, "b"⟩, ⟨"", 1, "x"⟩, ⟨"p", 2, "q"⟩] :=
  comment_filter_idempotent [⟨"a", 0, "b"⟩, ⟨"", 1, "x"⟩, ⟨"p", 2, "q"⟩]

/-- Submit arguments the decision maker sends for a summary and a list of
line-comment records. -/
def submitArgs (s : String) (entries : List LineCommentInput) : Json :=
  .obj [("summary", .str s), ("line_comments", .arr (entries.map encodeLineComment))]

/-- C4: a submit_review call with a valid summary and a list of line-comment
entries succeeds (never a validation error for the comments); entries with
empty path, empty body, or line < 1 are silently dropped and all other
entries are preserved in their original order in the constructed verdict. -/
theorem line_comments_lenient_filtering
    (input : ReviewInput) (slot : Option ReviewResult) (s : String)
    (entries : List LineCommentInput)
    (hb : ∀ c ∈ entries, c.line < 4294967296) :
    ReviewToolSource.call_tool input slot TOOL_SUBMIT_REVIEW (submitArgs s entries)
      = (Except.ok ⟨"Review submitted."⟩,
         if slot.isNone then
           some ⟨s, (entries.filter keepComment).map (fun c => ⟨c.path, c.line, c.body⟩)⟩
         else slot) := by
  have h1 : (submitArgs s entries).getField "line_comments"
      = some (.arr (entries.map encodeLineComment)) := rfl
  have hlc : getLineCommentsArg (submitArgs s entries) = some entries := by
    unfold getLineCommentsArg
    rw [h1, Option.getD_some]
    exact parseAll_encode entries hb
  rw [submit_valid_summary input slot (submitArgs s entries) s rfl, hlc]
  simp [ReviewToolSource.build_review_result, filterMapComments_eq_filter_map]

/-- Mixed list of valid and invalid line-comment entries. -/
def entriesW : List LineCommentInput :=
  [⟨"", 5, "x"⟩, ⟨"a", 0, "b"⟩, ⟨"src/lib.rs", 10, "Use Option here."⟩, ⟨"p", 1, ""⟩]

/-- C4 witness: of four entries (empty path, line 0, valid, empty body), the
call succeeds and exactly the valid one is retained. -/
theorem line_comments_lenient_filtering_witness :
    ReviewToolSource.call_tool inputW none TOOL_SUBMIT_REVIEW (submitArgs "A few nits." entriesW)
      = (Except.ok ⟨"Review submitted."⟩,
         if (none : Option ReviewResult).isNone then
           some ⟨"A few nits.",
                 (entriesW.filter keepComment).map (fun c => ⟨c.path, c.line, c.body⟩)⟩
         else none) :=
  line_comments_lenient_filtering inputW none "A few nits." entriesW (by decide)

/-- C5: for the MCP-backed dispatcher within one review, any number of
get_pr_context calls trigger at most one successful provider fetch (the cache
is populated at most once); a call with a populated cache reuses it without
touching the provider; an uncached call with a successful fetch populates the
cache; an uncached call with a failed fetch yields an InvalidInput failure
carrying the provider message and leaves the cache empty, so the next call
attempts a new fetch. -/
theorem mcp_fetch_once
    (mcp : McpProvider) (st : McpState) (args : Json) (input : ReviewInput)
    (calls : List (String × Json)) :
    (st.cached = none → McpReviewToolSource.cacheFills mcp st calls ≤ 1)
    ∧ (st.cached = some input →
        McpReviewToolSource.call_tool mcp st TOOL_GET_PR_CONTEXT args
          = (Except.ok ⟨McpReviewToolSource.get_part_from_input input (partArg args)⟩, st))
    ∧ (st.cached = none → mcp.fetch st.fetchCalls = Except.ok input →
        McpReviewToolSource.call_tool mcp st TOOL_GET_PR_CONTEXT args
          = (Except.ok ⟨McpReviewToolSource.get_part_from_input input (partArg args)⟩,
             { st with cached := some input, fetchCalls := st.fetchCalls + 1 }))
    ∧ (∀ e : McpError, st.cached = none → mcp.fetch st.fetchCalls = Except.error e →
        McpReviewToolSource.call_tool mcp st TOOL_GET_PR_CONTEXT args
          = (Except.error (.InvalidInput ("MCP fetch failed: " ++ e.message)),
             { st with fetchCalls := st.fetchCalls + 1 })) :=
  ⟨fun _ => cacheFills_le_one mcp st calls,
   fun hc => mcp_get_cached mcp st args input hc,
   fun hn hf => mcp_get_fetch_ok mcp st args input hn hf,
   fun e hn hf => mcp_get_fetch_err mcp st args e hn hf⟩

/-- C5 witness: three retrieval calls against a failing-fetch provider fill
the cache at most once; a concrete failed fetch surfaces the provider message
and leaves the cache empty; a populated cache is reused unchanged. -/
theorem mcp_fetch_once_witness :
    McpReviewToolSource.cacheFills providerFetchFailW stFreshW getCallsW ≤ 1
    ∧ McpReviewToolSource.call_tool providerFetchFailW stFreshW TOOL_GET_PR_CONTEXT argsPartDiffW
        = (Except.error
             (.InvalidInput ("MCP fetch failed: " ++ (⟨"boom"⟩ : McpError).message)),
           { stFreshW with fetchCalls := stFreshW.fetchCalls + 1 })
    ∧ McpReviewToolSource.call_tool providerOkW stCachedW TOOL_GET_PR_CONTEXT argsPartDiffW
        = (Except.ok ⟨McpReviewToolSource.get_part_from_input inputW (partArg argsPartDiffW)⟩,
           stCachedW) :=
  ⟨(mcp_fetch_once providerFetchFailW stFreshW argsPartDiffW inputW getCallsW).1 rfl,
   (mcp_fetch_once providerFetchFailW stFreshW argsPartDiffW inputW []).2.2.2 ⟨"boom"⟩ rfl rfl,
   (mcp_fetch_once providerOkW stCachedW argsPartDiffW inputW []).2.1 rfl⟩

/-- C10: a submit_review call with a valid summary whose line_comments value
does not deserialize as an array of well-formed records (here: any value on
which the element-wise parse fails) still succeeds, and the stored verdict's
line-comment list is empty — the whole list is discarded, including any
well-formed entries in it.  Both tool sources behave this way (the MCP one
after a successful publish). -/
theorem malformed_line_comments_discarded
    (input : ReviewInput) (slot : Option ReviewResult)
    (args : Json) (s : String) (j : Json)
    (hs : getSummaryArg args = some s)
    (hj : args.getField "line_comments" = some j)
    (hbad : parseLineComments j = none) :
    ReviewToolSource.call_tool input slot TOOL_SUBMIT_REVIEW args
      = (Except.ok ⟨"Review submitted."⟩,
         if slot.isNone then some (⟨s, []⟩ : ReviewResult) else slot)
    ∧ (∀ (mcp : McpProvider) (st : McpState),
        mcp.post_review st.postCalls (⟨s, []⟩ : ReviewResult) = Except.ok () →
        McpReviewToolSource.call_tool mcp st TOOL_SUBMIT_REVIEW args
          = (Except.ok ⟨"Review submitted and posted via MCP."⟩,
             { st with
                 slot := if st.slot.isNone then some (⟨s, []⟩ : ReviewResult) else st.slot,
                 postCalls := st.postCalls + 1 })) := by
  have hlc : getLineCommentsArg args = none := by
    unfold getLineCommentsArg
    rw [hj, Option.getD_some]
    exact hbad
  have hbuild : ReviewToolSource.build_review_result s (getLineCommentsArg args)
      = (⟨s, []⟩ : ReviewResult) := by
    unfold ReviewToolSource.build_review_result
    rw [hlc]
    rfl
  have hv : mcpVerdict s args = (⟨s, []⟩ : ReviewResult) := by
    unfold mcpVerdict
    rw [hlc]
    rfl
  constructor
  · rw [submit_valid_summary input slot args s hs, hbuild]
  · intro mcp st hpost
    have hpost2 : mcp.post_review st.postCalls (mcpVerdict s args) = Except.ok () := by
      rw [hv]
      exact hpost
    rw [mcp_submit_post_ok mcp st args s hs hpost2, hv]

/-- Line-comments value containing one well-formed record and one record
missing its line and body fields: element-wise deserialization fails. -/
def malformedLcW : Json :=
  .arr [encodeLineComment ⟨"a", 3, "ok"⟩, .obj [("path", .str "b")]]

/-- Submit arguments with a valid summary and the malformed comment list. -/
def argsMalformedW : Json :=
  .obj [("summary", .str "S"), ("line_comments", malformedLcW)]

/-- C10 witness: with one well-formed and one malformed entry, the call still
succeeds and the stored list is empty (the well-formed entry is discarded too). -/
theorem malformed_line_comments_discarded_witness :
    ReviewToolSource.call_tool inputW none TOOL_SUBMIT_REVIEW argsMalformedW
      = (Except.ok ⟨"Review submitted."⟩,
         if (none : Option ReviewResult).isNone then some (⟨"S", []⟩ : ReviewResult) else none)
    ∧ (∀ (mcp : McpProvider) (st : McpState),
        mcp.post_review st.postCalls (⟨"S", []⟩ : ReviewResult) = Except.ok () →
        McpReviewToolSource.call_tool mcp st TOOL_SUBMIT_REVIEW argsMalformedW
          = (Except.ok ⟨"Review submitted and posted via MCP."⟩,
             { st with
                 slot := if st.slot.isNone then some (⟨"S", []⟩ : ReviewResult) else st.slot,
                 postCalls := st.postCalls + 1 })) :=
  malformed_line_comments_discarded inputW none argsMalformedW "S" malformedLcW rfl rfl rfl

/-- Transcription of the spec sentence's first literal URL shape,
https://github.com/owner/repo/pull/id: exactly four path segments after the
host, the third being pull.  Declared only to compare the spec wording with
`PrUrl.parse`; the parser itself is modelled from the source above. -/
def specLiteralGitHubShape (s : String) : Bool :=
  match dropStart s "https://github.com/" with
  | some rest =>
      match splitSlash rest with
      | [_, _, p, _] => p == "pull"
      | _ => false
  | none => false

/-- Transcription of the spec sentence's second literal URL shape (gitlab
host, then owner, repo, a dash segment, merge_requests, id): exactly five
path segments after the host, the third being a dash and the fourth
merge_requests. -/
def specLiteralGitLabShape (s : String) : Bool :=
  match dropStart s "https://gitlab.com/" with
  | some rest =>
      match splitSlash rest with
      | [_, _, d, m, _] => d == "-" && m == "merge_requests"
      | _ => false
  | none => false

/-- C8 counterexample: `PrUrl.parse` accepts inputs that match neither literal
shape — a URL with an extra trailing path segment, and one with leading
whitespace — so it is not the case that every other input string is
unrecognized. -/
theorem pr_url_parse_relaxed_counterexample :
    PrUrl.parse "https://github.com/a/b/pull/1/x"
        = some ⟨.GitHub, "a", "b", "1"⟩
    ∧ specLiteralGitHubShape "https://github.com/a/b/pull/1/x" = false
    ∧ specLiteralGitLabShape "https://github.com/a/b/pull/1/x" = false
    ∧ PrUrl.parse " https://github.com/a/b/pull/1"
        = some ⟨.GitHub, "a", "b", "1"⟩
    ∧ specLiteralGitHubShape " https://github.com/a/b/pull/1" = false
    ∧ specLiteralGitLabShape " https://github.com/a/b/pull/1" = false := by
  refine ⟨by decide, rfl, rfl, by decide, rfl, rfl⟩

lemma dropStart_some_charLeads {s p rest : String}
    (h : dropStart s p = some rest) : charLeads p.data s.data = true := by
  by_cases hc : charLeads p.data s.data = true
  · exact hc
  · unfold dropStart at h
    rw [if_neg hc] at h
    exact absurd h (by simp)

lemma charLeads_exists {p l : List Char} (h : charLeads p l = true) :
    ∃ t, l = p ++ t := by
  induction p generalizing l with
  | nil => exact ⟨l, rfl⟩
  | cons c cs ih =>
      cases l with
      | nil => simp [charLeads] at h
      | cons d ds =>
          simp only [charLeads, Bool.and_eq_true, decide_eq_true_eq] at h
          obtain ⟨t, ht⟩ := ih h.2
          exact ⟨t, by rw [List.cons_append, ← ht, h.1]⟩

lemma hosts_disjoint (l : List Char)
    (h2 : charLeads ("https://gitlab.com/".data) l = true) :
    charLeads ("https://github.com/".data) l = false := by
  cases hgb : charLeads ("https://github.com/".data) l with
  | false => rfl
  | true =>
      obtain ⟨t1, ht1⟩ := charLeads_exists hgb
      obtain ⟨t2, ht2⟩ := charLeads_exists h2
      rw [ht1] at ht2
      have hlen : ("https://github.com/".data).length
          = ("https://gitlab.com/".data).length := by decide
      exact absurd (List.append_inj ht2 hlen).1 (by decide)

lemma dropStart_github_none {u rest : String}
    (h : dropStart u "https://gitlab.com/" = some rest) :
    dropStart u "https://github.com/" = none := by
  have h3 := hosts_disjoint u.data (dropStart_some_charLeads h)
  unfold dropStart
  simp [h3]

/-- C8 amended: `PrUrl.parse` accepts the two documented shapes and relaxed
variants of them.  For every input: after Unicode-whitespace trimming, any
github host whose path splits into at least four segments with the third
equal to pull is accepted (owner, repo, id are segments one, two and four;
extra trailing segments are ignored); any gitlab host whose path has a dash
segment followed by merge_requests and an id is accepted, the owner and repo
being the first two segments; and an input starting with neither host prefix
is unrecognized. -/
theorem pr_url_parse_amended (s : String) :
    (∀ rest : String,
        dropStart (trimStr s) "https://github.com/" = some rest →
        4 ≤ (splitSlash rest).length → (splitSlash rest).getD 2 "" = "pull" →
        PrUrl.parse s
          = some ⟨.GitHub, (splitSlash rest).getD 0 "",
                  (splitSlash rest).getD 1 "", (splitSlash rest).getD 3 ""⟩)
    ∧ (∀ (rest : String) (pos : Nat),
        dropStart (trimStr s) "https://gitlab.com/" = some rest →
        (splitSlash rest).findIdx? (fun p => p == "-") = some pos →
        pos + 2 < (splitSlash rest).length →
        (splitSlash rest).getD (pos + 1) "" = "merge_requests" →
        PrUrl.parse s
          = some ⟨.GitLab, (splitSlash rest).getD 0 "",
                  (splitSlash rest).getD 1 "", (splitSlash rest).getD (pos + 2) ""⟩)
    ∧ (dropStart (trimStr s) "https://github.com/" = none →
        dropStart (trimStr s) "https://gitlab.com/" = none →
        PrUrl.parse s = none) := by
  refine ⟨?_, ?_, ?_⟩
  · intro rest h hlen hpull
    rw [List.getD_eq_getElem?_getD] at hpull
    simp [PrUrl.parse, h, hlen, hpull]
  · intro rest pos hgl hfind hlt hmr
    rw [List.getD_eq_getElem?_getD] at hmr
    have hgh := dropStart_github_none hgl
    simp [PrUrl.parse, hgh, hgl, hfind, hlt, hmr]
  · intro h1 h2
    simp [PrUrl.parse, h1, h2]

/-- C8 amended witness: a github URL with a leading form feed (Unicode
whitespace), surrounding blanks and an extra trailing segment parses to its
first four segments; a gitlab URL with a subgroup path parses with the extra
segment dropped; a string that is no URL at all is unrecognized. -/
theorem pr_url_parse_amended_witness :
    PrUrl.parse "\x0C https://github.com/a/b/pull/1/x "
        = some ⟨.GitHub, "a", "b", "1"⟩
    ∧ PrUrl.parse "https://gitlab.com/grp/sub/proj/-/merge_requests/9"
        = some ⟨.GitLab, "grp", "sub", "9"⟩
    ∧ PrUrl.parse "not a url" = none :=
  ⟨(pr_url_parse_amended "\x0C https://github.com/a/b/pull/1/x ").1 "a/b/pull/1/x"
      (by decide) (by decide) (by decide),
   (pr_url_parse_amended "https://gitlab.com/grp/sub/proj/-/merge_requests/9").2.1
      "grp/sub/proj/-/merge_requests/9" 3 (by decide) (by decide) (by decide) (by decide),
   (pr_url_parse_amended "not a url").2.2 (by decide) (by decide)⟩

lemma get_pr_context_unknown (input : ReviewInput) (part : String)
    (h1 : part ≠ "title") (h2 : part ≠ "description")
    (h3 : part ≠ "diff") (h4 : part ≠ "files") :
    ReviewToolSource.get_pr_context input part = "Unknown part: " ++ part := by
  unfold ReviewToolSource.get_pr_context
  rw [if_neg h1, if_neg h2, if_neg h3, if_neg h4]

lemma get_part_from_input_unknown (input : ReviewInput) (part : String)
    (h1 : part ≠ "title") (h2 : part ≠ "description")
    (h3 : part ≠ "diff") (h4 : part ≠ "files") :
    McpReviewToolSource.get_part_from_input input part = "Unknown part: " ++ part := by
  unfold McpReviewToolSource.get_part_from_input
  rw [if_neg h1, if_neg h2, if_neg h3, if_neg h4]

lemma review_get_call (input : ReviewInput) (slot : Option ReviewResult) (args : Json) :
    ReviewToolSource.call_tool input slot TOOL_GET_PR_CONTEXT args
      = (Except.ok ⟨ReviewToolSource.get_pr_context input (partArg args)⟩, slot) := by
  unfold ReviewToolSource.call_tool
  rw [if_pos rfl]
  simp [partArg]

/-- C9 counterexample: with a live provider whose fetch fails and an empty
cache, a get_pr_context call whose part is not among
title/description/diff/files returns a hard InvalidInput failure rather than
a successful "Unknown part" text. -/
theorem get_pr_context_hard_failure_counterexample :
    (McpReviewToolSource.call_tool providerFetchFailW stFreshW
        TOOL_GET_PR_CONTEXT argsPartBogusW).1
      = Except.error (.InvalidInput ("MCP fetch failed: " ++ (⟨"boom"⟩ : McpError).message))
    ∧ partArg argsPartBogusW ∉ (["title", "description", "diff", "files"] : List String) := by
  constructor
  · rw [mcp_get_fetch_err providerFetchFailW stFreshW argsPartBogusW ⟨"boom"⟩ rfl rfl]
  · decide

/-- C9 amended: a get_pr_context call whose part is not among
title/description/diff/files yields the successful text "Unknown part: <part>"
in the in-memory source always, and in the MCP-backed source whenever the
cache is populated or the fetch succeeds; an uncached call whose fetch fails
yields the provider InvalidInput failure regardless of the part. -/
theorem unknown_part_lenient_amended
    (input : ReviewInput) (slot : Option ReviewResult) (args : Json)
    (mcp : McpProvider) (st : McpState)
    (hpart : partArg args ∉ (["title", "description", "diff", "files"] : List String)) :
    ReviewToolSource.call_tool input slot TOOL_GET_PR_CONTEXT args
        = (Except.ok ⟨"Unknown part: " ++ partArg args⟩, slot)
    ∧ (st.cached = some input →
        McpReviewToolSource.call_tool mcp st TOOL_GET_PR_CONTEXT args
          = (Except.ok ⟨"Unknown part: " ++ partArg args⟩, st))
    ∧ (st.cached = none → mcp.fetch st.fetchCalls = Except.ok input →
        McpReviewToolSource.call_tool mcp st TOOL_GET_PR_CONTEXT args
          = (Except.ok ⟨"Unknown part: " ++ partArg args⟩,
             { st with cached := some input, fetchCalls := st.fetchCalls + 1 }))
    ∧ (∀ e : McpError, st.cached = none → mcp.fetch st.fetchCalls = Except.error e →
        McpReviewToolSource.call_tool mcp st TOOL_GET_PR_CONTEXT args
          = (Except.error (.InvalidInput ("MCP fetch failed: " ++ e.message)),
             { st with fetchCalls := st.fetchCalls + 1 })) := by
  have h1 : partArg args ≠ "title" := fun h => hpart (by simp [h])
  have h2 : partArg args ≠ "description" := fun h => hpart (by simp [h])
  have h3 : partArg args ≠ "diff" := fun h => hpart (by simp [h])
  have h4 : partArg args ≠ "files" := fun h => hpart (by simp [h])
  refine ⟨?_, fun hc => ?_, fun hn hf => ?_, fun e hn hf => ?_⟩
  · rw [review_get_call input slot args,
      get_pr_context_unknown input (partArg args) h1 h2 h3 h4]
  · rw [mcp_get_cached mcp st args input hc,
      get_part_from_input_unknown input (partArg args) h1 h2 h3 h4]
  · rw [mcp_get_fetch_ok mcp st args input hn hf,
      get_part_from_input_unknown input (partArg args) h1 h2 h3 h4]
  · exact mcp_get_fetch_err mcp st args e hn hf

/-- C9 amended witness: the part "bogus" yields the "Unknown part" text from
the in-memory source and from the MCP source with a populated cache, and the
provider failure from an uncached MCP source whose fetch fails. -/
theorem unknown_part_lenient_amended_witness :
    ReviewToolSource.call_tool inputW none TOOL_GET_PR_CONTEXT argsPartBogusW
      = (Except.ok ⟨"Unknown part: " ++ partArg argsPartBogusW⟩, none)
    ∧ McpReviewToolSource.call_tool providerOkW stCachedW TOOL_GET_PR_CONTEXT argsPartBogusW
      = (Except.ok ⟨"Unknown part: " ++ partArg argsPartBogusW⟩, stCachedW)
    ∧ McpReviewToolSource.call_tool providerFetchFailW stFreshW TOOL_GET_PR_CONTEXT argsPartBogusW
      = (Except.error
           (.InvalidInput ("MCP fetch failed: " ++ (⟨"boom"⟩ : McpError).message)),
         { stFreshW with fetchCalls := stFreshW.fetchCalls + 1 }) :=
  ⟨(unknown_part_lenient_amended inputW none argsPartBogusW providerOkW stCachedW
      (by decide)).1,
   (unknown_part_lenient_amended inputW none argsPartBogusW providerOkW stCachedW
      (by decide)).2.1 rfl,
   (unknown_part_lenient_amended inputW none argsPartBogusW providerFetchFailW stFreshW
      (by decide)).2.2.2 ⟨"boom"⟩ rfl rfl⟩

end QuickReview
